import Mathlib

/-
Verification of balrog's access-control policy engine (balrog/policy.py)
against its design specification.

The embedding is shallow: Python dicts built by the Policy class become
association lists over String keys, collaborator callables become Lean
functions returning `Except Exc`, and a raised exception becomes an
`Except.error`.  The `Role` and `Permission` classes and the `exceptions`
module live in files of the repository that are not part of the sources at
hand, so their interfaces are modelled from the spec, as documented on each
such definition; `Policy` itself is translated line by line from
balrog/policy.py.
-/

set_option autoImplicit false

namespace Balrog

/-- Modelled from the spec: the error taxonomy of the missing
balrog/exceptions module.  policy.py raises `PermissionNotFound` and
`RoleNotFound`; a failing Python `assert` raises `AssertionError`; any other
exception a collaborator callable may raise is `otherError`. -/
inductive Exc where
  | PermissionNotFound (msg : String)
  | RoleNotFound
  | AssertionError (msg : String)
  | otherError (tag : String)
  deriving DecidableEq

variable {ι γ σ : Type}

/-- First-match lookup in an association list; models Python dict membership
(`k in d`) and indexing (`d[k]`) for the dicts built by `Policy`. -/
def dictLookup {α : Type} (d : List (String × α)) (k : String) : Option α :=
  match d with
  | [] => none
  | (k₁, v) :: rest => if k₁ = k then some v else dictLookup rest k

/-- Python dict assignment `d[k] = v`: replace the stored value in place when
the key is already present, append the pair at the end otherwise. -/
def dictInsert {α : Type} (d : List (String × α)) (k : String) (v : α) : List (String × α) :=
  match d with
  | [] => [(k, v)]
  | (k₁, w) :: rest => if k₁ = k then (k, v) :: rest else (k₁, w) :: dictInsert rest k v

/-- Modelled from the spec: balrog/permission.py is not among the sources at
hand.  `Permission(name)` stores the name verbatim; equality is by name. -/
structure Permission where
  name : String
  deriving DecidableEq

/-- Modelled from the spec: balrog/role.py is not among the sources at hand.
`Policy` consumes a role by duck typing as a named object exposing
`check(identity, permission, *context)` and
`filter(identity, permission, objects, *context)`; either may raise, which
the `Except` results model. -/
structure Role (ι γ σ : Type) where
  name : String
  check : ι → String → γ → Except Exc Bool
  filter : ι → String → σ → γ → Except Exc σ

/-- The `Policy` class of balrog/policy.py.  `getIdentityCb` and `getRoleCb`
are the injected callables stored as `self._get_identity` and
`self._get_role`; `roles` is the dict built by `__init__`; `permissions` is
`None` or the dict of all known permissions keyed by name. -/
structure Policy (ι γ σ : Type) where
  getIdentityCb : γ → Except Exc ι
  getRoleCb : ι → γ → Except Exc String
  roles : List (String × Role ι γ σ)
  permissions : Option (List (String × Permission))

/-- An element of the `permissions` argument of `Policy.__init__`: either a
bare name string or a `Permission` object (the `isinstance(permission,
basestring)` test distinguishes the two). -/
abbrev PermEntry : Type := Sum String Permission

/-- The string-to-Permission coercion done on each entry of the
`permissions` argument: a bare name is materialized as `Permission(name)`, a
`Permission` object is kept as is. -/
def materializePermission (e : PermEntry) : Permission :=
  match e with
  | Sum.inl s => Permission.mk s
  | Sum.inr p => p

/-- The name under which an entry of the `permissions` argument is stored. -/
def permEntryName (e : PermEntry) : String :=
  (materializePermission e).name

/-- The permissions loop of `Policy.__init__`: coerce bare strings to
`Permission` objects, then store each permission keyed by its name. -/
def buildPermissions (es : List PermEntry) (acc : List (String × Permission)) :
    List (String × Permission) :=
  match es with
  | [] => acc
  | e :: rest =>
      buildPermissions rest
        (dictInsert acc (materializePermission e).name (materializePermission e))

/-- The roles loop of `Policy.__init__`: `assert role.name not in self.roles`
(a failing assert raises and aborts construction), then store the role under
its name. -/
def registerRoles (rs : List (Role ι γ σ)) (acc : List (String × Role ι γ σ)) :
    Except Exc (List (String × Role ι γ σ)) :=
  match rs with
  | [] => Except.ok acc
  | r :: rest =>
      if (dictLookup acc r.name).isSome then
        Except.error (Exc.AssertionError ("The role `" ++ r.name ++ "` is already registered."))
      else
        registerRoles rest (dictInsert acc r.name r)

/-- `Policy.__init__`: store the two callables, build the permissions dict
when the argument is not `None` (the specific `None` check of the source),
and register the roles, failing on a duplicate role name. -/
def Policy.init (roles : List (Role ι γ σ)) (gi : γ → Except Exc ι)
    (gr : ι → γ → Except Exc String) (permissions : Option (List PermEntry)) :
    Except Exc (Policy ι γ σ) :=
  match registerRoles roles [] with
  | Except.error e => Except.error e
  | Except.ok m =>
      Except.ok (Policy.mk gi gr m (permissions.map (fun es => buildPermissions es [])))

/-- `Policy._check_permission`: `if self.permissions and permission not in
self.permissions: raise PermissionNotFound(...)`.  Note the truthiness test:
`None` and the empty dict are both falsy, so the error is raised only when
the permissions dict is non-empty and lacks the name. -/
def Policy.checkPermission (p : Policy ι γ σ) (perm : String) : Except Exc Unit :=
  match p.permissions with
  | none => Except.ok ()
  | some d =>
      if d ≠ [] ∧ (dictLookup d perm).isNone then
        Except.error (Exc.PermissionNotFound
          ("Permission " ++ perm ++ " was not found in the list of all permissions."))
      else
        Except.ok ()

/-- `Policy.get_identity`: return `self._get_identity(*args, **kwargs)`. -/
def Policy.get_identity (p : Policy ι γ σ) (ctx : γ) : Except Exc ι :=
  p.getIdentityCb ctx

/-- `Policy.get_role`: obtain the role name from
`self._get_role(identity, *args, **kwargs)`, then look it up in
`self.roles`; the `KeyError` of a missing key becomes `RoleNotFound`. -/
def Policy.get_role (p : Policy ι γ σ) (i : ι) (ctx : γ) : Except Exc (Role ι γ σ) :=
  match p.getRoleCb i ctx with
  | Except.error e => Except.error e
  | Except.ok name =>
      match dictLookup p.roles name with
      | some r => Except.ok r
      | none => Except.error Exc.RoleNotFound

/-- `Policy.check`: validate the permission name, resolve the identity, try
to resolve the role catching only `RoleNotFound` (leaving `role = None`),
return `False` when no role was resolved, else delegate to `role.check`. -/
def Policy.check (p : Policy ι γ σ) (perm : String) (ctx : γ) : Except Exc Bool :=
  match Policy.checkPermission p perm with
  | Except.error e => Except.error e
  | Except.ok _ =>
      match Policy.get_identity p ctx with
      | Except.error e => Except.error e
      | Except.ok i =>
          match Policy.get_role p i ctx with
          | Except.error Exc.RoleNotFound => Except.ok false
          | Except.error e => Except.error e
          | Except.ok role => role.check i perm ctx

/-- `Policy.filter`: validate the permission name, resolve the identity and
the role (a role-resolution failure propagates, nothing is caught), then
delegate to `role.filter`. -/
def Policy.filter (p : Policy ι γ σ) (perm : String) (objects : σ) (ctx : γ) :
    Except Exc σ :=
  match Policy.checkPermission p perm with
  | Except.error e => Except.error e
  | Except.ok _ =>
      match Policy.get_identity p ctx with
      | Except.error e => Except.error e
      | Except.ok i =>
          match Policy.get_role p i ctx with
          | Except.error e => Except.error e
          | Except.ok role => role.filter i perm objects ctx

/-- A collaborator invocation observable during `Policy.check`: the identity
callable, the role-name callable, or the delegated `role.check`. -/
inductive Event where
  | callIdentity
  | callRoleName
  | callRoleCheck
  deriving DecidableEq

/-- `Policy.check` instrumented with the list of collaborator invocations it
performs, in order.  The control flow is that of `Policy.check` with
`Policy.get_role` inlined, so that the call to the role-name callable is
visible as an event. -/
def Policy.checkTraced (p : Policy ι γ σ) (perm : String) (ctx : γ) :
    Except Exc Bool × List Event :=
  match Policy.checkPermission p perm with
  | Except.error e => (Except.error e, [])
  | Except.ok _ =>
      match p.getIdentityCb ctx with
      | Except.error e => (Except.error e, [Event.callIdentity])
      | Except.ok i =>
          match p.getRoleCb i ctx with
          | Except.error Exc.RoleNotFound =>
              (Except.ok false, [Event.callIdentity, Event.callRoleName])
          | Except.error e =>
              (Except.error e, [Event.callIdentity, Event.callRoleName])
          | Except.ok name =>
              match dictLookup p.roles name with
              | none => (Except.ok false, [Event.callIdentity, Event.callRoleName])
              | some role =>
                  (role.check i perm ctx,
                   [Event.callIdentity, Event.callRoleName, Event.callRoleCheck])

/-- The traces `Policy.checkTraced` may produce: identity resolution comes
first, then role-name resolution, then the delegated capability check, and a
step is reached only when every earlier step was taken. -/
def orderedTrace (t : List Event) : Prop :=
  t = [] ∨ t = [Event.callIdentity] ∨ t = [Event.callIdentity, Event.callRoleName] ∨
    t = [Event.callIdentity, Event.callRoleName, Event.callRoleCheck]

/-- `Policy.check` in state-passing form: `self` is threaded through every
statement of the method body.  No statement of the source assigns to a field
of `self`, so each branch returns the policy it received. -/
def Policy.checkS (p : Policy ι γ σ) (perm : String) (ctx : γ) :
    Except Exc Bool × Policy ι γ σ :=
  match Policy.checkPermission p perm with
  | Except.error e => (Except.error e, p)
  | Except.ok _ =>
      match Policy.get_identity p ctx with
      | Except.error e => (Except.error e, p)
      | Except.ok i =>
          match Policy.get_role p i ctx with
          | Except.error Exc.RoleNotFound => (Except.ok false, p)
          | Except.error e => (Except.error e, p)
          | Except.ok role => (role.check i perm ctx, p)

/-- `Policy.filter` in state-passing form, as `Policy.checkS`. -/
def Policy.filterS (p : Policy ι γ σ) (perm : String) (objects : σ) (ctx : γ) :
    Except Exc σ × Policy ι γ σ :=
  match Policy.checkPermission p perm with
  | Except.error e => (Except.error e, p)
  | Except.ok _ =>
      match Policy.get_identity p ctx with
      | Except.error e => (Except.error e, p)
      | Except.ok i =>
          match Policy.get_role p i ctx with
          | Except.error e => (Except.error e, p)
          | Except.ok role => (role.filter i perm objects ctx, p)

/-- A concrete role granting everything: its capability check always allows
and its capability filter keeps every object. -/
def alwaysTrueRole : Role Nat Nat (List Nat) :=
  Role.mk "viewer" (fun _ _ _ => Except.ok true) (fun _ _ objs _ => Except.ok objs)

/-- A second concrete role, with a distinct name. -/
def editorRole : Role Nat Nat (List Nat) :=
  Role.mk "editor" (fun _ _ _ => Except.ok false) (fun _ _ _ _ => Except.ok [])

/-- A concrete identity callable returning identity `1`. -/
def giOk : Nat → Except Exc Nat := fun _ => Except.ok 1

/-- A concrete role-name callable returning the registered name "viewer". -/
def grViewer : Nat → Nat → Except Exc String := fun _ _ => Except.ok "viewer"

/-- A concrete role-name callable returning the unregistered name "ghost". -/
def grGhost : Nat → Nat → Except Exc String := fun _ _ => Except.ok "ghost"

/-- A concrete policy: role "viewer" registered, a universe of the two names
"view" and "edit", role-name callable resolving to "viewer". -/
def pViewer : Policy Nat Nat (List Nat) :=
  Policy.mk giOk grViewer [("viewer", alwaysTrueRole)]
    (some [("view", Permission.mk "view"), ("edit", Permission.mk "edit")])

/-- A concrete policy whose role-name callable resolves to the unregistered
name "ghost". -/
def pGhost : Policy Nat Nat (List Nat) :=
  Policy.mk giOk grGhost [("viewer", alwaysTrueRole)]
    (some [("view", Permission.mk "view")])

/-- A concrete policy built with `permissions=[]`: the universe is configured
and empty. -/
def pEmptyU : Policy Nat Nat (List Nat) :=
  Policy.mk giOk grViewer [("viewer", alwaysTrueRole)] (some [])

/-- A concrete policy whose role-name callable raises an exception that is
not `RoleNotFound`. -/
def pBoom : Policy Nat Nat (List Nat) :=
  Policy.mk giOk (fun _ _ => Except.error (Exc.otherError "boom"))
    [("viewer", alwaysTrueRole)] none

/-- The characteristic equation of Python dict assignment: after
`d[k] = v`, looking up `k` gives `v` and every other key is unchanged. -/
theorem dictLookup_insert {α : Type} (d : List (String × α)) (k : String) (v : α)
    (k' : String) :
    dictLookup (dictInsert d k v) k' = if k = k' then some v else dictLookup d k' := by
  induction d with
  | nil =>
      by_cases hk : k = k' <;> simp [dictInsert, dictLookup, hk]
  | cons hd tl ih =>
      obtain ⟨k₁, w⟩ := hd
      by_cases h₁ : k₁ = k
      · subst h₁
        by_cases hk : k₁ = k' <;> simp [dictInsert, dictLookup, hk]
      · by_cases h₂ : k₁ = k'
        · subst h₂
          have hk : k ≠ k₁ := fun he => h₁ he.symm
          simp [dictInsert, dictLookup, h₁, hk]
        · by_cases hk : k = k'
          · subst hk
            simp [dictInsert, dictLookup, h₁, h₂, ih]
          · simp [dictInsert, dictLookup, h₁, h₂, hk, ih]

/-- When every role name is fresh with respect to the accumulator and the
names are pairwise distinct, the registration loop succeeds, stores every
role under its name, and keeps the accumulator's entries. -/
theorem registerRoles_ok {ι γ σ : Type} (rs : List (Role ι γ σ))
    (acc : List (String × Role ι γ σ))
    (hnd : (rs.map Role.name).Nodup)
    (hfresh : ∀ r ∈ rs, dictLookup acc r.name = none) :
    ∃ m, registerRoles rs acc = Except.ok m ∧
      (∀ r ∈ rs, dictLookup m r.name = some r) ∧
      (∀ k v, dictLookup acc k = some v → dictLookup m k = some v) := by
  induction rs generalizing acc with
  | nil =>
      exact ⟨acc, rfl, by simp, fun k v h => h⟩
  | cons r rest ih =>
      have hr : dictLookup acc r.name = none := hfresh r (by simp)
      rw [List.map_cons] at hnd
      have hnotmem : r.name ∉ rest.map Role.name := (List.nodup_cons.mp hnd).1
      have hndrest : (rest.map Role.name).Nodup := (List.nodup_cons.mp hnd).2
      have hfresh' : ∀ r' ∈ rest, dictLookup (dictInsert acc r.name r) r'.name = none := by
        intro r' hr'
        rw [dictLookup_insert]
        have hne : r.name ≠ r'.name := by
          intro he
          exact hnotmem (he ▸ List.mem_map_of_mem Role.name hr')
        simp [hne, hfresh r' (by simp [hr'])]
      obtain ⟨m, hm, hroles, hkeep⟩ := ih (dictInsert acc r.name r) hndrest hfresh'
      refine ⟨m, ?_, ?_, ?_⟩
      · unfold registerRoles
        simp [hr, hm]
      · intro r' hr'
        rcases List.mem_cons.mp hr' with he | hmem
        · subst he
          exact hkeep r'.name r' (by rw [dictLookup_insert]; simp)
        · exact hroles r' hmem
      · intro k v hk
        apply hkeep
        rw [dictLookup_insert]
        have hne : r.name ≠ k := by
          intro he
          rw [← he, hr] at hk
          exact Option.noConfusion hk
        simp [hne, hk]

/-- If some role's name is already a key of the accumulator, the
registration loop fails with a Python `AssertionError`. -/
theorem registerRoles_err_mem {ι γ σ : Type} (rs : List (Role ι γ σ))
    (acc : List (String × Role ι γ σ))
    (hmem : ∃ r ∈ rs, (dictLookup acc r.name).isSome) :
    ∃ msg, registerRoles rs acc = Except.error (Exc.AssertionError msg) := by
  induction rs generalizing acc with
  | nil => simp at hmem
  | cons r rest ih =>
      by_cases hs : (dictLookup acc r.name).isSome
      · exact ⟨"The role `" ++ r.name ++ "` is already registered.",
          by unfold registerRoles; simp [hs]⟩
      · obtain ⟨r₀, hr₀, hr₀s⟩ := hmem
        rcases List.mem_cons.mp hr₀ with he | hmem'
        · exact absurd (he ▸ hr₀s) hs
        · have : ∃ r' ∈ rest, (dictLookup (dictInsert acc r.name r) r'.name).isSome := by
            refine ⟨r₀, hmem', ?_⟩
            rw [dictLookup_insert]
            by_cases hk : r.name = r₀.name <;> simp [hk, hr₀s]
          obtain ⟨msg, hmsg⟩ := ih (dictInsert acc r.name r) this
          exact ⟨msg, by unfold registerRoles; simp [hs, hmsg]⟩

/-- Duplicate role names make the registration loop fail with a Python
`AssertionError`, whatever the accumulator. -/
theorem registerRoles_err_dup {ι γ σ : Type} (rs : List (Role ι γ σ))
    (acc : List (String × Role ι γ σ))
    (hdup : ¬ (rs.map Role.name).Nodup) :
    ∃ msg, registerRoles rs acc = Except.error (Exc.AssertionError msg) := by
  induction rs generalizing acc with
  | nil => simp at hdup
  | cons r rest ih =>
      by_cases hs : (dictLookup acc r.name).isSome
      · exact ⟨"The role `" ++ r.name ++ "` is already registered.",
          by unfold registerRoles; simp [hs]⟩
      · rw [List.map_cons] at hdup
        by_cases hmem : r.name ∈ rest.map Role.name
        · obtain ⟨r', hr', hname⟩ := List.mem_map.mp hmem
          have : ∃ r'' ∈ rest, (dictLookup (dictInsert acc r.name r) r''.name).isSome := by
            refine ⟨r', hr', ?_⟩
            rw [dictLookup_insert]
            simp [hname]
          obtain ⟨msg, hmsg⟩ := registerRoles_err_mem rest (dictInsert acc r.name r) this
          exact ⟨msg, by unfold registerRoles; simp [hs, hmsg]⟩
        · have hdup' : ¬ (rest.map Role.name).Nodup := fun hn =>
            hdup (List.nodup_cons.mpr ⟨hmem, hn⟩)
          obtain ⟨msg, hmsg⟩ := ih (dictInsert acc r.name r) hdup'
          exact ⟨msg, by unfold registerRoles; simp [hs, hmsg]⟩

/-- A name is a key of the dict built by the permissions loop exactly when it
is the name of one of the supplied entries (or was a key already). -/
theorem buildPermissions_isSome (es : List PermEntry) (acc : List (String × Permission))
    (n : String) :
    (dictLookup (buildPermissions es acc) n).isSome ↔
      n ∈ es.map permEntryName ∨ (dictLookup acc n).isSome := by
  induction es generalizing acc with
  | nil => simp [buildPermissions]
  | cons e rest ih =>
      rw [List.map_cons]
      unfold buildPermissions
      rw [ih]
      by_cases he : (materializePermission e).name = n
      · simp [dictLookup_insert, he, permEntryName]
      · have : ¬ n = permEntryName e := fun h => he (by simpa [permEntryName] using h.symm)
        simp [dictLookup_insert, he, this]

/-- Every value stored by the permissions loop is keyed by its own name. -/
theorem buildPermissions_name (es : List PermEntry) (acc : List (String × Permission))
    (hacc : ∀ k q, dictLookup acc k = some q → q.name = k) :
    ∀ k q, dictLookup (buildPermissions es acc) k = some q → q.name = k := by
  induction es generalizing acc with
  | nil => exact hacc
  | cons e rest ih =>
      unfold buildPermissions
      apply ih
      intro k q h
      rw [dictLookup_insert] at h
      by_cases he : (materializePermission e).name = k
      · rw [if_pos he] at h
        cases h
        exact he
      · rw [if_neg he] at h
        exact hacc k q h

/-- The instrumented `Policy.checkTraced` computes the result of
`Policy.check`. -/
theorem checkTraced_fst {ι γ σ : Type} (p : Policy ι γ σ) (perm : String) (ctx : γ) :
    (Policy.checkTraced p perm ctx).1 = Policy.check p perm ctx := by
  cases hcp : Policy.checkPermission p perm with
  | error e => simp [Policy.checkTraced, Policy.check, hcp]
  | ok u =>
      cases hgi : p.getIdentityCb ctx with
      | error e =>
          simp [Policy.checkTraced, Policy.check, Policy.get_identity, hcp, hgi]
      | ok i =>
          cases hgr : p.getRoleCb i ctx with
          | error e =>
              cases e <;>
                simp [Policy.checkTraced, Policy.check, Policy.get_identity,
                  Policy.get_role, hcp, hgi, hgr]
          | ok name =>
              cases hdl : dictLookup p.roles name <;>
                simp [Policy.checkTraced, Policy.check, Policy.get_identity,
                  Policy.get_role, hcp, hgi, hgr, hdl]

/-- C1 (evaluation of the code at the failing input): constructing a Policy
with `permissions=[]` yields a configured, empty universe (`some []`), yet
neither `check` nor `filter` raises `PermissionNotFound` for the name
"view": `check` returns the delegate's `True` and `filter` returns the
objects unchanged, because the truthiness test `if self.permissions` in
`_check_permission` treats the empty dict like `None`.  The claim (and the
spec) requires a configured-but-empty universe to reject every name. -/
theorem c1_empty_universe_skips_validation :
    Policy.init [alwaysTrueRole] giOk grViewer (some []) = Except.ok pEmptyU ∧
    pEmptyU.permissions = some [] ∧
    Policy.check pEmptyU "view" 0 = Except.ok true ∧
    Policy.filter pEmptyU "view" [1, 2] 0 = Except.ok [1, 2] :=
  ⟨rfl, rfl, rfl, rfl⟩

/-- C2: whenever the permission name passes universe validation, the
identity resolves, and role resolution fails with `RoleNotFound`,
`Policy.check` catches the error internally and returns `False` instead of
raising. -/
theorem c2_check_catches_role_not_found {ι γ σ : Type} (p : Policy ι γ σ)
    (perm : String) (ctx : γ) (i : ι)
    (hperm : Policy.checkPermission p perm = Except.ok ())
    (hi : p.getIdentityCb ctx = Except.ok i)
    (hrole : Policy.get_role p i ctx = Except.error Exc.RoleNotFound) :
    Policy.check p perm ctx = Except.ok false := by
  simp [Policy.check, Policy.get_identity, hperm, hi, hrole]

/-- C2 witness: on the concrete policy whose role-name callable resolves to
the unregistered name "ghost", `check "view"` returns `False`. -/
theorem c2_witness : Policy.check pGhost "view" 0 = Except.ok false :=
  c2_check_catches_role_not_found pGhost "view" 0 1 rfl rfl rfl

/-- C3: `Policy.get_role` raises `RoleNotFound` whenever the name produced
by the role-name callable is not a registered role, and `Policy.filter`
propagates that `RoleNotFound` to the caller instead of returning a filtered
collection. -/
theorem c3_filter_propagates_role_not_found {ι γ σ : Type} (p : Policy ι γ σ)
    (perm : String) (ctx : γ) (i : ι) (objs : σ) (name : String) :
    (p.getRoleCb i ctx = Except.ok name → dictLookup p.roles name = none →
      Policy.get_role p i ctx = Except.error Exc.RoleNotFound) ∧
    (Policy.checkPermission p perm = Except.ok () → p.getIdentityCb ctx = Except.ok i →
      Policy.get_role p i ctx = Except.error Exc.RoleNotFound →
      Policy.filter p perm objs ctx = Except.error Exc.RoleNotFound) := by
  constructor
  · intro h₁ h₂
    simp [Policy.get_role, h₁, h₂]
  · intro hperm hi hrole
    simp [Policy.filter, Policy.get_identity, hperm, hi, hrole]

/-- C3 witness: on the concrete policy resolving to the unregistered role
name "ghost", `get_role` raises `RoleNotFound` and so does `filter`. -/
theorem c3_witness :
    Policy.get_role pGhost 1 0 = Except.error Exc.RoleNotFound ∧
    Policy.filter pGhost "view" [1, 2] 0 = Except.error Exc.RoleNotFound :=
  ⟨(c3_filter_propagates_role_not_found pGhost "view" 0 1 [1, 2] "ghost").1 rfl rfl,
   (c3_filter_propagates_role_not_found pGhost "view" 0 1 [1, 2] "ghost").2 rfl rfl rfl⟩

/-- C4: `Policy.check` follows the strict decision order.  When universe
validation fails, check raises that `PermissionNotFound` with an empty
collaborator trace, so neither the identity callable nor the role-name
callable was invoked; in every case the trace of collaborator invocations is
a stage of identity resolution, then role-name resolution, then delegation,
and the instrumented run computes exactly `Policy.check`. -/
theorem c4_check_strict_order {ι γ σ : Type} (p : Policy ι γ σ) (perm : String)
    (ctx : γ) :
    (∀ e, Policy.checkPermission p perm = Except.error e →
      Policy.checkTraced p perm ctx = (Except.error e, [])) ∧
    orderedTrace (Policy.checkTraced p perm ctx).2 ∧
    (Policy.checkTraced p perm ctx).1 = Policy.check p perm ctx := by
  refine ⟨?_, ?_, checkTraced_fst p perm ctx⟩
  · intro e he
    unfold Policy.checkTraced
    rw [he]
  · unfold orderedTrace Policy.checkTraced
    cases hcp : Policy.checkPermission p perm with
    | error e => simp
    | ok u =>
        cases hgi : p.getIdentityCb ctx with
        | error e => simp
        | ok i =>
            cases hgr : p.getRoleCb i ctx with
            | error e => cases e <;> simp [hgr]
            | ok name => cases hdl : dictLookup p.roles name <;> simp [hgr, hdl]

/-- C4 witness: on the concrete policy with universe "view"/"edit", checking
the out-of-universe name "delete" raises `PermissionNotFound` with an empty
collaborator trace. -/
theorem c4_witness :
    Policy.checkTraced pViewer "delete" 0 =
      (Except.error (Exc.PermissionNotFound
        "Permission delete was not found in the list of all permissions."), []) :=
  (c4_check_strict_order pViewer "delete" 0).1
    (Exc.PermissionNotFound
      "Permission delete was not found in the list of all permissions.") rfl

/-- C5: once universe validation passes and the identity resolves, if a role
is resolved then `Policy.check` returns exactly `role.check i perm ctx` with
identity, permission name and context passed through unchanged, and if no
role is resolved it returns `False`. -/
theorem c5_check_delegates_verbatim {ι γ σ : Type} (p : Policy ι γ σ)
    (perm : String) (ctx : γ) (i : ι) (role : Role ι γ σ)
    (hperm : Policy.checkPermission p perm = Except.ok ())
    (hi : p.getIdentityCb ctx = Except.ok i) :
    (Policy.get_role p i ctx = Except.ok role →
      Policy.check p perm ctx = role.check i perm ctx) ∧
    (Policy.get_role p i ctx = Except.error Exc.RoleNotFound →
      Policy.check p perm ctx = Except.ok false) := by
  constructor <;> intro hrole <;>
    simp [Policy.check, Policy.get_identity, hperm, hi, hrole]

/-- C5 witness: on the concrete policy resolving role "viewer", `check` of
"view" is exactly the role capability's verdict. -/
theorem c5_witness :
    Policy.check pViewer "view" 0 = alwaysTrueRole.check 1 "view" 0 :=
  (c5_check_delegates_verbatim pViewer "view" 0 1 alwaysTrueRole rfl rfl).1 rfl

/-- The state-passing `Policy.checkS` leaves the policy unchanged: no
statement of the method body assigns to a field of `self`. -/
theorem checkS_snd {ι γ σ : Type} (p : Policy ι γ σ) (perm : String) (ctx : γ) :
    (Policy.checkS p perm ctx).2 = p := by
  cases hcp : Policy.checkPermission p perm with
  | error e => simp [Policy.checkS, hcp]
  | ok u =>
      cases hgi : Policy.get_identity p ctx with
      | error e => simp [Policy.checkS, hcp, hgi]
      | ok i =>
          cases hgr : Policy.get_role p i ctx with
          | error e => cases e <;> simp [Policy.checkS, hcp, hgi, hgr]
          | ok role => simp [Policy.checkS, hcp, hgi, hgr]

/-- The state-passing `Policy.checkS` computes the result of `Policy.check`. -/
theorem checkS_fst {ι γ σ : Type} (p : Policy ι γ σ) (perm : String) (ctx : γ) :
    (Policy.checkS p perm ctx).1 = Policy.check p perm ctx := by
  cases hcp : Policy.checkPermission p perm with
  | error e => simp [Policy.checkS, Policy.check, hcp]
  | ok u =>
      cases hgi : Policy.get_identity p ctx with
      | error e => simp [Policy.checkS, Policy.check, hcp, hgi]
      | ok i =>
          cases hgr : Policy.get_role p i ctx with
          | error e => cases e <;> simp [Policy.checkS, Policy.check, hcp, hgi, hgr]
          | ok role => simp [Policy.checkS, Policy.check, hcp, hgi, hgr]

/-- The state-passing `Policy.filterS` leaves the policy unchanged. -/
theorem filterS_snd {ι γ σ : Type} (p : Policy ι γ σ) (perm : String) (objs : σ)
    (ctx : γ) : (Policy.filterS p perm objs ctx).2 = p := by
  cases hcp : Policy.checkPermission p perm with
  | error e => simp [Policy.filterS, hcp]
  | ok u =>
      cases hgi : Policy.get_identity p ctx with
      | error e => simp [Policy.filterS, hcp, hgi]
      | ok i =>
          cases hgr : Policy.get_role p i ctx with
          | error e => simp [Policy.filterS, hcp, hgi, hgr]
          | ok role => simp [Policy.filterS, hcp, hgi, hgr]

/-- The state-passing `Policy.filterS` computes the result of
`Policy.filter`. -/
theorem filterS_fst {ι γ σ : Type} (p : Policy ι γ σ) (perm : String) (objs : σ)
    (ctx : γ) : (Policy.filterS p perm objs ctx).1 = Policy.filter p perm objs ctx := by
  cases hcp : Policy.checkPermission p perm with
  | error e => simp [Policy.filterS, Policy.filter, hcp]
  | ok u =>
      cases hgi : Policy.get_identity p ctx with
      | error e => simp [Policy.filterS, Policy.filter, hcp, hgi]
      | ok i =>
          cases hgr : Policy.get_role p i ctx with
          | error e => simp [Policy.filterS, Policy.filter, hcp, hgi, hgr]
          | ok role => simp [Policy.filterS, Policy.filter, hcp, hgi, hgr]

/-- C6: constructing a Policy from roles with a duplicate name always aborts
with the assertion error, before any Policy value exists; with all-distinct
names construction succeeds and the resulting registry stores every supplied
role under its own name. -/
theorem c6_duplicate_role_names {ι γ σ : Type} (rs : List (Role ι γ σ))
    (gi : γ → Except Exc ι) (gr : ι → γ → Except Exc String)
    (ps : Option (List PermEntry)) :
    (¬ (rs.map Role.name).Nodup →
      ∃ msg, Policy.init rs gi gr ps = Except.error (Exc.AssertionError msg)) ∧
    ((rs.map Role.name).Nodup →
      ∃ p, Policy.init rs gi gr ps = Except.ok p ∧
        ∀ r ∈ rs, dictLookup p.roles r.name = some r) := by
  constructor
  · intro hdup
    obtain ⟨msg, hmsg⟩ := registerRoles_err_dup rs [] hdup
    exact ⟨msg, by unfold Policy.init; rw [hmsg]⟩
  · intro hnd
    obtain ⟨m, hm, hroles, _⟩ := registerRoles_ok rs [] hnd (fun r _ => rfl)
    exact ⟨Policy.mk gi gr m (ps.map (fun es => buildPermissions es [])),
      by unfold Policy.init; rw [hm], hroles⟩

/-- C6 witness: two roles both named "viewer" make construction fail; the
distinct pair "viewer"/"editor" constructs and registers both. -/
theorem c6_witness :
    (∃ msg, Policy.init [alwaysTrueRole, alwaysTrueRole] giOk grViewer none =
      Except.error (Exc.AssertionError msg)) ∧
    (∃ p, Policy.init [alwaysTrueRole, editorRole] giOk grViewer none = Except.ok p ∧
      ∀ r ∈ [alwaysTrueRole, editorRole], dictLookup p.roles r.name = some r) :=
  ⟨(c6_duplicate_role_names [alwaysTrueRole, alwaysTrueRole] giOk grViewer none).1
      (by decide),
   (c6_duplicate_role_names [alwaysTrueRole, editorRole] giOk grViewer none).2
      (by decide)⟩

/-- C7: whenever role registration succeeds, construction with a permissions
sequence yields exactly the universe built by coercing each bare name to a
`Permission` and keying every entry by its name, and a name is a key of that
universe exactly when it is the name of some supplied entry, the stored
permission carrying that very name. -/
theorem c7_permissions_materialized {ι γ σ : Type} (es : List PermEntry)
    (rs : List (Role ι γ σ)) (gi : γ → Except Exc ι)
    (gr : ι → γ → Except Exc String) (m : List (String × Role ι γ σ))
    (hm : registerRoles rs [] = Except.ok m) :
    Policy.init rs gi gr (some es) =
      Except.ok (Policy.mk gi gr m (some (buildPermissions es []))) ∧
    (∀ n, (∃ q, dictLookup (buildPermissions es []) n = some q ∧ q.name = n) ↔
      n ∈ es.map permEntryName) := by
  constructor
  · unfold Policy.init
    rw [hm]
    rfl
  · intro n
    constructor
    · rintro ⟨q, hq, hname⟩
      have hsome : (dictLookup (buildPermissions es []) n).isSome := by
        rw [hq]; rfl
      rcases (buildPermissions_isSome es [] n).mp hsome with h | h
      · exact h
      · simp [dictLookup] at h
    · intro hmem
      have hsome : (dictLookup (buildPermissions es []) n).isSome :=
        (buildPermissions_isSome es [] n).mpr (Or.inl hmem)
      obtain ⟨q, hq⟩ := Option.isSome_iff_exists.mp hsome
      exact ⟨q, hq,
        buildPermissions_name es [] (fun k q' h => by simp [dictLookup] at h) n q hq⟩

/-- C7 witness: construction with the entries "view" (bare string) and
`Permission("edit")` materializes both and keys the universe by exactly
those two names. -/
theorem c7_witness :
    Policy.init ([] : List (Role Nat Nat (List Nat))) giOk grViewer
        (some [Sum.inl "view", Sum.inr (Permission.mk "edit")]) =
      Except.ok (Policy.mk giOk grViewer []
        (some (buildPermissions [Sum.inl "view", Sum.inr (Permission.mk "edit")] []))) ∧
    (∀ n, (∃ q,
        dictLookup (buildPermissions [Sum.inl "view", Sum.inr (Permission.mk "edit")] []) n =
          some q ∧ q.name = n) ↔
      n ∈ [Sum.inl "view", Sum.inr (Permission.mk "edit")].map permEntryName) :=
  c7_permissions_materialized [Sum.inl "view", Sum.inr (Permission.mk "edit")] []
    giOk grViewer [] rfl

/-- C8: `Policy.get_identity` returns exactly what the injected identity
callable produces for the given context, and `Policy.get_role` derives its
registry key from the injected role-name callable applied to the identity
and context, propagating whatever that callable raises. -/
theorem c8_providers_invoked {ι γ σ : Type} (p : Policy ι γ σ) (ctx : γ) (i : ι) :
    Policy.get_identity p ctx = p.getIdentityCb ctx ∧
    (∀ name, p.getRoleCb i ctx = Except.ok name →
      Policy.get_role p i ctx =
        (match dictLookup p.roles name with
         | some r => Except.ok r
         | none => Except.error Exc.RoleNotFound)) ∧
    (∀ e, p.getRoleCb i ctx = Except.error e →
      Policy.get_role p i ctx = Except.error e) := by
  refine ⟨rfl, ?_, ?_⟩
  · intro name h
    simp [Policy.get_role, h]
  · intro e h
    simp [Policy.get_role, h]

/-- C8 witness: on the concrete policy, `get_identity` is the callable's
output and `get_role` looks up exactly the name "viewer" produced by the
role-name callable. -/
theorem c8_witness :
    Policy.get_identity pViewer 0 = pViewer.getIdentityCb 0 ∧
    Policy.get_role pViewer 1 0 =
      (match dictLookup pViewer.roles "viewer" with
       | some r => Except.ok r
       | none => Except.error Exc.RoleNotFound) :=
  ⟨(c8_providers_invoked pViewer 0 1).1,
   (c8_providers_invoked pViewer 0 1).2.1 "viewer" rfl⟩

/-- C9: in state-passing form, `check` and `filter` return the policy they
received — roles, permissions and the stored callables are unchanged by
every call — and therefore an immediately repeated call through the
returned state yields the identical outcome. -/
theorem c9_check_filter_pure {ι γ σ : Type} (p : Policy ι γ σ) (perm : String)
    (ctx : γ) (objs : σ) :
    (Policy.checkS p perm ctx).2 = p ∧
    (Policy.checkS p perm ctx).1 = Policy.check p perm ctx ∧
    (Policy.filterS p perm objs ctx).2 = p ∧
    (Policy.filterS p perm objs ctx).1 = Policy.filter p perm objs ctx ∧
    Policy.checkS (Policy.checkS p perm ctx).2 perm ctx = Policy.checkS p perm ctx ∧
    Policy.filterS (Policy.filterS p perm objs ctx).2 perm objs ctx =
      Policy.filterS p perm objs ctx :=
  ⟨checkS_snd p perm ctx, checkS_fst p perm ctx, filterS_snd p perm objs ctx,
   filterS_fst p perm objs ctx, by rw [checkS_snd], by rw [filterS_snd]⟩

/-- C10: `RoleNotFound` raised during role resolution is the only exception
`Policy.check` converts into a deny.  A `PermissionNotFound` from universe
validation, any exception of the identity callable, any non-`RoleNotFound`
exception of the role-name callable, and any exception of the delegated
capability check all propagate unchanged to the caller. -/
theorem c10_only_role_not_found_denied {ι γ σ : Type} (p : Policy ι γ σ)
    (perm : String) (ctx : γ) (i : ι) (role : Role ι γ σ) (e : Exc) :
    (Policy.checkPermission p perm = Except.error e →
      Policy.check p perm ctx = Except.error e) ∧
    (Policy.checkPermission p perm = Except.ok () →
      p.getIdentityCb ctx = Except.error e →
      Policy.check p perm ctx = Except.error e) ∧
    (Policy.checkPermission p perm = Except.ok () →
      p.getIdentityCb ctx = Except.ok i → e ≠ Exc.RoleNotFound →
      p.getRoleCb i ctx = Except.error e →
      Policy.check p perm ctx = Except.error e) ∧
    (Policy.checkPermission p perm = Except.ok () →
      p.getIdentityCb ctx = Except.ok i →
      Policy.get_role p i ctx = Except.ok role →
      role.check i perm ctx = Except.error e →
      Policy.check p perm ctx = Except.error e) := by
  refine ⟨?_, ?_, ?_, ?_⟩
  · intro h
    simp [Policy.check, h]
  · intro h₁ h₂
    simp [Policy.check, Policy.get_identity, h₁, h₂]
  · intro h₁ h₂ hne h₃
    have hgr : Policy.get_role p i ctx = Except.error e := by
      simp [Policy.get_role, h₃]
    cases e with
    | RoleNotFound => exact absurd rfl hne
    | PermissionNotFound msg => simp [Policy.check, Policy.get_identity, h₁, h₂, hgr]
    | AssertionError msg => simp [Policy.check, Policy.get_identity, h₁, h₂, hgr]
    | otherError tag => simp [Policy.check, Policy.get_identity, h₁, h₂, hgr]
  · intro h₁ h₂ h₃ h₄
    simp [Policy.check, Policy.get_identity, h₁, h₂, h₃, h₄]

/-- C10 witness: on the concrete policy whose role-name callable raises an
exception other than `RoleNotFound`, `check` propagates that exception. -/
theorem c10_witness :
    Policy.check pBoom "anything" 0 = Except.error (Exc.otherError "boom") :=
  (c10_only_role_not_found_denied pBoom "anything" 0 1 alwaysTrueRole
    (Exc.otherError "boom")).2.2.1 rfl rfl (by decide) rfl

end Balrog
